import Mathlib

/-!
Shallow embedding of the Urban City Parking system (src/main.py).

Modelling conventions:
* Money and multipliers are exact rationals (ℚ).  For the multipliers the
  program actually constructs (1.0, 0.8, 1.5) every per-hour charge is a
  multiple of 0.1, so exact rational arithmetic produces the same cent
  amounts as Python floats.
* A `datetime` is an integer count of seconds since 1970-01-01 00:00
  (naive local time, no DST — Python naive-datetime arithmetic is exactly
  linear in seconds).  1970-01-01 was a Thursday, i.e. Python
  `weekday() = 3`.  A `date` on the fee-resolution side is the integer
  day ordinal `t / 86400` (floor division, as Python's).
* Python `round(x, 2)` rounds to the nearest hundredth with ties going to
  the even hundredth (banker's rounding); `pyRound2` models this on ℚ,
  which agrees with CPython on inputs whose values are exactly
  representable.
* Python `dict` preserves insertion order; the pass registry (keyed by a
  fresh uuid per pass) is modelled as a list in insertion order, and uuid
  generation is modelled by the caller supplying the fresh id.
-/

/-! ## Utility functions (src/main.py, `ceil_hours`, `is_weekend`) -/

/-- `ceil_hours` from src/main.py: round a duration in seconds up to whole
hours, with a minimum of 1 billed hour. -/
def ceil_hours (duration_seconds : ℚ) : Int :=
  let hours := duration_seconds / 3600
  let billed := ⌈hours⌉
  max 1 billed

/-- Python `dt.weekday()` (Monday = 0 … Sunday = 6) for a timestamp in
seconds since the epoch; 1970-01-01 was a Thursday (= 3). -/
def weekdayOf (t : Int) : Int :=
  (Int.fdiv t 86400 + 3).emod 7

/-- `is_weekend` from src/main.py: Saturday (5) or Sunday (6). -/
def is_weekend (t : Int) : Bool :=
  weekdayOf t ≥ 5

/-- Python `dt.hour` for a timestamp in seconds since the epoch. -/
def hourOf (t : Int) : Int :=
  (Int.emod t 86400).fdiv 3600

/-- Python `dt.date()` as an integer day ordinal (floor division by one
day's seconds). -/
def dateOf (t : Int) : Int :=
  Int.fdiv t 86400

/-- Python `round(x, 2)`: round to the nearest multiple of 1/100, ties to
the even multiple (CPython rounds the exact value of the float argument
half-to-even). -/
def pyRound2 (q : ℚ) : ℚ :=
  let x := q * 100
  let n := ⌊x⌋
  let frac := x - (n : ℚ)
  let r : Int :=
    if frac < 1/2 then n
    else if 1/2 < frac then n + 1
    else if n % 2 = 0 then n else n + 1
  (r : ℚ) / 100

/-! ## HourlyPricingStrategy (src/main.py) -/

/-- The per-hour base rate chosen from the start-of-hour timestamp
(body of the loop in `HourlyPricingStrategy.calculate_price`):
weekend 5.0, weekday 08–18 peak 6.0, otherwise 4.0. -/
def base_rate (t : Int) : ℚ :=
  if is_weekend t then 5
  else if 8 ≤ hourOf t ∧ hourOf t < 18 then 6
  else 4

/-- The accumulation loop of `calculate_price`: starting at `t`, add
`base_rate t * mult` and advance the simulated clock by one hour,
once per billed hour. -/
def fee_loop (mult : ℚ) : Nat → Int → ℚ → ℚ
  | 0, _, acc => acc
  | n + 1, t, acc => fee_loop mult n (t + 3600) (acc + base_rate t * mult)

/-- `HourlyPricingStrategy.calculate_price` from src/main.py.  The
`exit_time` argument is accepted but (as in the source) never read:
billing depends only on `duration_seconds` and `entry_time`. -/
def calculate_price (duration_seconds : ℚ) (mult : ℚ)
    (entry_time : Int) (exit_time : Int) : ℚ :=
  let billed_hours := (ceil_hours duration_seconds).toNat
  let _ := exit_time
  pyRound2 (fee_loop mult billed_hours entry_time 0)

/-- `HourlyPricingStrategy.rule_name` from src/main.py. -/
def hourly_rule_name : String := "Hourly Pricing (Peak/Off-peak/Weekend)"

/-! ### Spec-side formulations used to state the pricing claims -/

/-- The claimed per-billed-hour sum: hour `i` (0-based) is charged at the
base rate of the timestamp `entry + 3600·i`, times the multiplier. -/
def hourly_sum (mult : ℚ) (entry_time : Int) (billed : Nat) : ℚ :=
  ((List.range billed).map
    (fun (i : Nat) => base_rate (entry_time + 3600 * (i : Int)) * mult)).sum

/-- Modelled from the spec: "rounded to 2 decimal places using standard
half-up rounding" — round to the nearest hundredth with ties away from
zero upward. -/
def roundHalfUp2 (q : ℚ) : ℚ :=
  (⌊q * 100 + 1/2⌋ : ℚ) / 100

/-! ## Passes (src/main.py, `MonthlyPass` / `WeeklyPass` / `SingleEntryPass`) -/

/-- The three concrete `Pass` subclasses of src/main.py, as a closed
variant tag. -/
inductive PassKind
  | weeklyP
  | monthlyP
  | singleP
  deriving DecidableEq, Repr

/-- A stored pass.  `start_date`/`end_date` are day ordinals and are only
meaningful for the time-range variants; `used` is only meaningful for a
single-entry pass (both are created `false`/`0` otherwise, matching the
subclass constructors). -/
structure PPass where
  pass_id : String
  plate : String
  kind : PassKind
  start_date : Int
  end_date : Int
  used : Bool
  deriving DecidableEq, Repr

/-- `Pass.pass_type` of each subclass. -/
def pass_type_str : PassKind → String
  | .weeklyP => "WeeklyPass"
  | .monthlyP => "MonthlyPass"
  | .singleP => "SingleEntryPass"

/-- `is_valid(at_time)`: a time-range pass is valid when
`start_date ≤ at_time.date() ≤ end_date`; a single-entry pass is valid
when not yet used. -/
def pass_is_valid (p : PPass) (at_time : Int) : Bool :=
  match p.kind with
  | .monthlyP => decide (p.start_date ≤ dateOf at_time ∧ dateOf at_time ≤ p.end_date)
  | .weeklyP => decide (p.start_date ≤ dateOf at_time ∧ dateOf at_time ≤ p.end_date)
  | .singleP => !p.used

/-- `SingleEntryPass.mark_used`. -/
def mark_used (p : PPass) : PPass :=
  ⟨p.pass_id, p.plate, p.kind, p.start_date, p.end_date, true⟩

/-- The `MonthlyPass` constructor (uuid modelled as a caller-supplied
fresh id). -/
def MonthlyPass (pass_id plate : String) (start_date end_date : Int) : PPass :=
  ⟨pass_id, plate, .monthlyP, start_date, end_date, false⟩

/-- The `WeeklyPass` constructor. -/
def WeeklyPass (pass_id plate : String) (start_date end_date : Int) : PPass :=
  ⟨pass_id, plate, .weeklyP, start_date, end_date, false⟩

/-- The `SingleEntryPass` constructor (`used = False`). -/
def SingleEntryPass (pass_id plate : String) : PPass :=
  ⟨pass_id, plate, .singleP, 0, 0, false⟩

/-! ## PassManager (src/main.py)

The registry dict `_passes` (keyed by the fresh uuid of each pass) is
modelled as the list of its values in insertion order. -/

/-- `PassManager.create_monthly_pass`: create, store, return. -/
def create_monthly_pass (fresh_id plate : String) (start_date end_date : Int)
    (mgr : List PPass) : PPass × List PPass :=
  let mp := MonthlyPass fresh_id plate start_date end_date
  (mp, mgr ++ [mp])

/-- `PassManager.create_weekly_pass`: create, store, return. -/
def create_weekly_pass (fresh_id plate : String) (start_date end_date : Int)
    (mgr : List PPass) : PPass × List PPass :=
  let wp := WeeklyPass fresh_id plate start_date end_date
  (wp, mgr ++ [wp])

/-- `PassManager.find_valid_pass`: the first stored pass (insertion
order) whose plate matches and which is valid at `at_time`. -/
def find_valid_pass (mgr : List PPass) (plate : String) (at_time : Int) : Option PPass :=
  mgr.find? (fun p => p.plate == plate && pass_is_valid p at_time)

/-! ## Vehicles and sessions (src/main.py) -/

/-- A vehicle: normalized plate and the fee multiplier of its category. -/
structure PVehicle where
  plate : String
  mult : ℚ
  deriving DecidableEq, Repr

/-- `Car`: multiplier 1.0. -/
def Car (plate : String) : PVehicle := ⟨plate, 1⟩

/-- `Motorcycle`: multiplier 0.8. -/
def Motorcycle (plate : String) : PVehicle := ⟨plate, 4/5⟩

/-- `Truck`: multiplier 1.5. -/
def Truck (plate : String) : PVehicle := ⟨plate, 3/2⟩

/-- `ParkingSession` (the spot id is irrelevant to fee resolution and
omitted).  `pass_used` holds the pass object presented at entry, which —
via `start_session` — is the registry's own object, identified here by
its `pass_id`. -/
structure PSession where
  ticket_id : String
  vehicle : PVehicle
  entry_time : Int
  pass_used : Option PPass
  exit_time : Option Int
  deriving DecidableEq, Repr

/-- `ParkingSession.duration_seconds`: 0 while open, else
`exit_time − entry_time`. -/
def duration_seconds (s : PSession) : ℚ :=
  match s.exit_time with
  | none => 0
  | some e => ((e - s.entry_time : Int) : ℚ)

/-! ## FeeCalculator (src/main.py) -/

/-- The 4-tuple returned by `FeeCalculator.compute_fee`. -/
structure FeeResult where
  fee : ℚ
  rule : String
  pass_info : String
  applied_pass_type : Option String
  deriving DecidableEq, Repr

/-- Steps 2 and 3 of `compute_fee`: auto-detect a valid pass by plate
(waiving only for the time-range variants), otherwise normal pricing
with the given `pass_info` carried through. -/
def fee_steps23 (s : PSession) (mgr : List PPass) (t : Int)
    (pass_info : String) : FeeResult × List PPass :=
  let normal : FeeResult × List PPass :=
    (⟨calculate_price (duration_seconds s) s.vehicle.mult s.entry_time t,
      hourly_rule_name, pass_info, none⟩, mgr)
  match find_valid_pass mgr s.vehicle.plate t with
  | some auto_p =>
    if auto_p.kind = .monthlyP ∨ auto_p.kind = .weeklyP then
      (⟨0, "Pass Auto-Detected", pass_type_str auto_p.kind ++ " VALID (fee waived)",
        some (pass_type_str auto_p.kind)⟩, mgr)
    else normal
  | none => normal

/-- `FeeCalculator.compute_fee`.  `none` models the failed assertion on
an unclosed session.  Mutation of the presented single-entry pass
(`p.mark_used()` on the shared registry object) is modelled by updating
the registry entry with the same `pass_id`; the two lines after the
three `isinstance` returns in the source are unreachable (the three
subclasses are exhaustive) and have no counterpart here. -/
def compute_fee (s : PSession) (mgr : List PPass) : Option (FeeResult × List PPass) :=
  match s.exit_time with
  | none => none
  | some t =>
    match s.pass_used with
    | some p =>
      if !(pass_is_valid p t) then
        some (fee_steps23 s mgr t (pass_type_str p.kind ++ " INVALID (charged normally)"))
      else
        match p.kind with
        | .monthlyP =>
          some (⟨0, "MonthlyPass Applied", "MonthlyPass VALID (fee waived)",
                 some "MonthlyPass"⟩, mgr)
        | .weeklyP =>
          some (⟨0, "WeeklyPass Applied", "WeeklyPass VALID (fee waived)",
                 some "WeeklyPass"⟩, mgr)
        | .singleP =>
          some (⟨0, "SingleEntryPass Applied", "SingleEntryPass USED (fee waived)",
                 some "SingleEntryPass"⟩,
                mgr.map (fun q => if q.pass_id = p.pass_id then mark_used q else q))
    | none => some (fee_steps23 s mgr t "No pass")

/-! ## Reporting module (src/main.py, `FinanceModule` / `ReportGenerator`)

Report records carry plain calendar dates; `strftime("%Y-%m")` month keys
are modelled as the number `year*100 + month`, which is equality- and
order-isomorphic to the zero-padded "YYYY-MM" string for four-digit
years.  Python dicts are modelled as association lists in insertion
order. -/

/-- A calendar date as it appears in report records. -/
structure MDate where
  year : Nat
  month : Nat
  day : Nat
  deriving DecidableEq, Repr

/-- `d.strftime("%Y-%m")` as a month-key number. -/
def month_key (d : MDate) : Nat := d.year * 100 + d.month

/-- The finance state read by the reports: dated `(date, amount, label)`
revenue and expense records (debtors/creditors are not read by any
monthly report). -/
structure FinanceModule where
  revenues : List (MDate × ℚ × String)
  expenses : List (MDate × ℚ × String)

/-- `PassSale` from src/main.py. -/
structure PassSale where
  sold_on : MDate
  pass_type : String
  amount : ℚ
  pass_id : String
  plate : String
  deriving DecidableEq, Repr

/-- The fields of `Receipt` read by `monthly_car_count`: the plate and
the exit timestamp's calendar date (its month is taken by strftime). -/
structure RReceipt where
  ticket_id : String
  plate : String
  exit_date : MDate
  fee : ℚ
  deriving DecidableEq, Repr

/-- Lookup in a Python-dict-as-association-list. -/
def dict_lookup {α : Type} : List (Nat × α) → Nat → Option α
  | [], _ => none
  | kv :: rest, m => if kv.1 = m then some kv.2 else dict_lookup rest m

/-- `d.get(m, dflt)`. -/
def dict_getD {α : Type} (l : List (Nat × α)) (m : Nat) (dflt : α) : α :=
  (dict_lookup l m).getD dflt

/-- The common dict-update pattern of the report loops: update key `k`
with `g` (starting from `init` when the key is absent), preserving
insertion order — existing keys keep their position, a new key is
appended. -/
def dict_upsert {α : Type} (k : Nat) (g : α → α) (init : α) :
    List (Nat × α) → List (Nat × α)
  | [] => [(k, g init)]
  | kv :: rest =>
    if kv.1 = k then (kv.1, g kv.2) :: rest else kv :: dict_upsert k g init rest

/-- The three per-month sale counters of
`monthly_pass_sales_report` (`WeeklyPass`/`MonthlyPass`/`SingleEntryPass`). -/
structure SaleCounts where
  weekly : Nat
  monthly : Nat
  single : Nat
  deriving DecidableEq, Repr

/-- The fresh counter dict `{"WeeklyPass": 0, "MonthlyPass": 0,
"SingleEntryPass": 0}`. -/
def zero_counts : SaleCounts := ⟨0, 0, 0⟩

/-- `if s.pass_type in report[month_key]: report[month_key][s.pass_type] += 1`:
only the three known variant names are counted. -/
def bump_counts (ptype : String) (c : SaleCounts) : SaleCounts :=
  if ptype = "WeeklyPass" then ⟨c.weekly + 1, c.monthly, c.single⟩
  else if ptype = "MonthlyPass" then ⟨c.weekly, c.monthly + 1, c.single⟩
  else if ptype = "SingleEntryPass" then ⟨c.weekly, c.monthly, c.single + 1⟩
  else c

/-- `ReportGenerator.monthly_pass_sales_report`. -/
def monthly_pass_sales_report (pass_sales : List PassSale) : List (Nat × SaleCounts) :=
  pass_sales.foldl
    (fun report s => dict_upsert (month_key s.sold_on) (bump_counts s.pass_type) zero_counts report)
    []

/-- Python `set.add` on a set modelled as a duplicate-free list. -/
def set_insert (x : String) (l : List String) : List String :=
  if x ∈ l then l else l ++ [x]

/-- `ReportGenerator.monthly_car_count`: per exit month, the number of
distinct plates. -/
def monthly_car_count (receipts : List RReceipt) : List (Nat × Nat) :=
  (receipts.foldl
      (fun cars r => dict_upsert (month_key r.exit_date) (set_insert r.plate) [] cars)
      []).map (fun kv => (kv.1, kv.2.length))

/-- `ReportGenerator.monthly_revenue_report`: per-month sums of revenue
amounts, each rounded to 2 decimals. -/
def monthly_revenue_report (finance : FinanceModule) : List (Nat × ℚ) :=
  (finance.revenues.foldl
      (fun rev r => dict_upsert (month_key r.1) (fun v => v + r.2.1) 0 rev)
      []).map (fun kv => (kv.1, pyRound2 kv.2))

/-- `ReportGenerator.monthly_expense_report`. -/
def monthly_expense_report (finance : FinanceModule) : List (Nat × ℚ) :=
  (finance.expenses.foldl
      (fun exp r => dict_upsert (month_key r.1) (fun v => v + r.2.1) 0 exp)
      []).map (fun kv => (kv.1, pyRound2 kv.2))

/-- `ReportGenerator.monthly_profit_report`: over the sorted union of
months, revenue minus expense (missing side 0), rounded to 2 decimals. -/
def monthly_profit_report (finance : FinanceModule) : List (Nat × ℚ) :=
  let rev := monthly_revenue_report finance
  let exp := monthly_expense_report finance
  let all_months := (rev.map Prod.fst ++ exp.map Prod.fst).dedup
  (List.insertionSort (· ≤ ·) all_months).map
    (fun m => (m, pyRound2 (dict_getD rev m 0 - dict_getD exp m 0)))

/-! ## Pricing lemmas -/

/-- Peeling one hour off the front of the per-hour sum. -/
lemma hourly_sum_succ (mult : ℚ) (t : Int) (n : Nat) :
    hourly_sum mult t (n + 1) = base_rate t * mult + hourly_sum mult (t + 3600) n := by
  unfold hourly_sum
  rw [List.range_succ_eq_map]
  simp only [List.map_cons, List.sum_cons, List.map_map, Function.comp_def, Nat.cast_zero,
    mul_zero, add_zero]
  congr 1
  congr 1
  apply List.map_congr_left
  intro i _
  congr 1
  push_cast
  ring_nf

/-- The accumulation loop computes the per-hour sum. -/
lemma fee_loop_eq_hourly_sum (mult : ℚ) :
    ∀ (n : Nat) (t : Int) (acc : ℚ), fee_loop mult n t acc = acc + hourly_sum mult t n := by
  intro n
  induction n with
  | zero => intro t acc; simp [fee_loop, hourly_sum]
  | succ k ih =>
    intro t acc
    rw [fee_loop, ih, hourly_sum_succ]
    ring

/-- `calculate_price` equals the rounded per-hour sum. -/
lemma calculate_price_eq_hourly_sum (d mult : ℚ) (entry_t exit_t : Int) :
    calculate_price d mult entry_t exit_t
      = pyRound2 (hourly_sum mult entry_t (ceil_hours d).toNat) := by
  show pyRound2 (fee_loop mult (ceil_hours d).toNat entry_t 0) = _
  rw [fee_loop_eq_hourly_sum, zero_add]

/-- Evaluating `pyRound2` when the fractional part is below one half. -/
lemma pyRound2_of_lt (q : ℚ) (n : Int) (hn : ⌊q * 100⌋ = n)
    (h : q * 100 - (n : ℚ) < 1/2) : pyRound2 q = (n : ℚ) / 100 := by
  simp only [pyRound2]
  rw [hn, if_pos h]

/-- Evaluating `pyRound2` at an exact half with an even lower hundredth. -/
lemma pyRound2_tie_even (q : ℚ) (n : Int) (hn : ⌊q * 100⌋ = n)
    (h : q * 100 - (n : ℚ) = 1/2) (he : n % 2 = 0) : pyRound2 q = (n : ℚ) / 100 := by
  simp only [pyRound2]
  rw [hn, h, if_neg (by norm_num), if_neg (by norm_num), if_pos he]

/-- C3: for every duration `d` in seconds the number of billed hours is
`max(1, ceil(d/3600))`; in particular `d = 0` bills 1 hour and
`d = 3601` bills 2 hours. -/
theorem C3_billed_hours :
    (∀ d : ℚ, ceil_hours d = max 1 ⌈d / 3600⌉)
    ∧ ceil_hours 0 = 1 ∧ ceil_hours 3601 = 2 := by
  refine ⟨fun _ => rfl, ?_, ?_⟩
  · show max 1 ⌈(0 : ℚ) / 3600⌉ = 1
    norm_num
  · show max 1 ⌈(3601 : ℚ) / 3600⌉ = 2
    have h2 : ⌈(3601 : ℚ) / 3600⌉ = 2 := by
      rw [Int.ceil_eq_iff]
      constructor <;> norm_num
    rw [h2]
    decide

/-- C2 (amended): the pricing engine walks the billed hours one hour at a
time starting at the entry timestamp, charging each hour
`base_rate × multiplier` with base rate 5.0 on weekend hours, 6.0 on
weekday hours in [8,18) and 4.0 otherwise; the fee is this sum rounded to
2 decimals by Python `round` (banker's rounding, ties to even — not
half-up); a 2-billed-hour weekday stay entered at 17:00 costs
`round(6.0·mult + 4.0·mult, 2)`. -/
theorem C2_hourly_pricing :
    (∀ (d mult : ℚ) (entry_t exit_t : Int),
      calculate_price d mult entry_t exit_t
        = pyRound2 (hourly_sum mult entry_t (ceil_hours d).toNat))
    ∧ (∀ mult : ℚ, calculate_price 7200 mult 61200 68400 = pyRound2 (6 * mult + 4 * mult)) := by
  refine ⟨calculate_price_eq_hourly_sum, ?_⟩
  intro mult
  rw [calculate_price_eq_hourly_sum]
  have hb : (ceil_hours 7200).toNat = 2 := by
    have h2 : ⌈(7200 : ℚ) / 3600⌉ = 2 := by
      rw [Int.ceil_eq_iff]
      constructor <;> norm_num
    show (max 1 ⌈(7200 : ℚ) / 3600⌉).toNat = 2
    rw [h2]
    decide
  rw [hb]
  have h0 : base_rate 61200 = 6 := by decide
  have h1 : base_rate 64800 = 4 := by decide
  have hs0 : hourly_sum mult 61200 2
      = base_rate (61200 + 3600 * ((0 : ℕ) : ℤ)) * mult
        + (base_rate (61200 + 3600 * ((1 : ℕ) : ℤ)) * mult + 0) := rfl
  have e0 : (61200 + 3600 * ((0 : ℕ) : ℤ)) = 61200 := by decide
  have e1 : (61200 + 3600 * ((1 : ℕ) : ℤ)) = 64800 := by decide
  rw [hs0, e0, e1, h0, h1, add_zero]

/-- C2 counterexample: at multiplier 1/8 for a single weekend billed hour
the sum is 0.625; Python `round` (modelled by `pyRound2`) gives 0.62
while the claimed half-up rounding gives 0.63, so the fee is not the
half-up rounding of the per-hour sum.  Entry 172800 s is Saturday
1970-01-03 00:00. -/
theorem C2_counterexample :
    calculate_price 3600 (1/8) 172800 176400 = 62/100
    ∧ roundHalfUp2 (hourly_sum (1/8) 172800 (ceil_hours 3600).toNat) = 63/100
    ∧ calculate_price 3600 (1/8) 172800 176400
        ≠ roundHalfUp2 (hourly_sum (1/8) 172800 (ceil_hours 3600).toNat) := by
  have hc : (ceil_hours 3600).toNat = 1 := by
    have h1 : ⌈(3600 : ℚ) / 3600⌉ = 1 := by
      rw [Int.ceil_eq_iff]
      constructor <;> norm_num
    show (max 1 ⌈(3600 : ℚ) / 3600⌉).toNat = 1
    rw [h1]
    decide
  have hbr : base_rate 172800 = 5 := by decide
  have hsum : hourly_sum (1/8) 172800 1 = 5 * (1/8) := by
    have h := show hourly_sum (1/8) 172800 1
        = base_rate (172800 + 3600 * ((0 : ℕ) : ℤ)) * (1/8) + 0 from rfl
    have e : (172800 + 3600 * ((0 : ℕ) : ℤ)) = 172800 := by decide
    rw [h, e, hbr, add_zero]
  have hfloor : ⌊(5 : ℚ) * (1/8) * 100⌋ = 62 := by
    rw [Int.floor_eq_iff]
    constructor <;> norm_num
  have A : calculate_price 3600 (1/8) 172800 176400 = 62/100 := by
    rw [calculate_price_eq_hourly_sum, hc, hsum,
      pyRound2_tie_even (5 * (1/8)) 62 hfloor (by norm_num) (by decide)]
    norm_num
  have B : roundHalfUp2 (hourly_sum (1/8) 172800 (ceil_hours 3600).toNat) = 63/100 := by
    rw [hc, hsum]
    simp only [roundHalfUp2]
    have h63 : ⌊(5 : ℚ) * (1/8) * 100 + 1/2⌋ = 63 := by
      rw [Int.floor_eq_iff]
      constructor <;> norm_num
    rw [h63]
    norm_num
  exact ⟨A, B, by rw [A, B]; norm_num⟩

/-- C10: a non-positive duration is not rejected: exactly one hour is
billed, at the base rate of the entry timestamp, giving
`round(base_rate(entry) × multiplier, 2)`. -/
theorem C10_nonpositive_duration (d mult : ℚ) (entry_t exit_t : Int) (h : d ≤ 0) :
    calculate_price d mult entry_t exit_t = pyRound2 (base_rate entry_t * mult) := by
  have hdiv : d / 3600 ≤ 0 := by
    rw [div_nonpos_iff]
    right
    exact ⟨h, by norm_num⟩
  have hceil : ⌈d / 3600⌉ ≤ 0 := by
    rw [Int.ceil_le]
    exact_mod_cast hdiv
  have h1 : ceil_hours d = 1 := by
    show max 1 ⌈d / 3600⌉ = 1
    exact max_eq_left (hceil.trans (by norm_num))
  have h2 : calculate_price d mult entry_t exit_t
      = pyRound2 (fee_loop mult (ceil_hours d).toNat entry_t 0) := rfl
  rw [h2, h1]
  have h3 : fee_loop mult ((1 : ℤ).toNat) entry_t 0 = 0 + base_rate entry_t * mult := rfl
  rw [h3, zero_add]

/-- Witness for C10 at duration −5 s, multiplier 1, weekday 17:00 entry:
the fee is one peak hour, 6.00. -/
theorem C10_witness :
    calculate_price (-5) 1 61200 61200 = pyRound2 (base_rate 61200 * 1)
    ∧ pyRound2 (base_rate 61200 * 1) = 6 := by
  refine ⟨C10_nonpositive_duration (-5) 1 61200 61200 (by norm_num), ?_⟩
  have hb : base_rate 61200 = 6 := by decide
  rw [hb]
  have hfloor : ⌊(6 : ℚ) * 1 * 100⌋ = 600 := by
    rw [Int.floor_eq_iff]
    constructor <;> norm_num
  rw [pyRound2_of_lt (6 * 1) 600 hfloor (by norm_num)]
  norm_num

/-! ## Fee-resolution claims -/

/-- A closed session always produces a result. -/
lemma compute_fee_total (s : PSession) (mgr : List PPass) (t : Int)
    (hx : s.exit_time = some t) :
    ∃ (r : FeeResult) (mgr' : List PPass), compute_fee s mgr = some (r, mgr') := by
  unfold compute_fee
  rw [hx]
  rcases hp : s.pass_used with _ | p
  · exact ⟨_, _, rfl⟩
  · cases hv : pass_is_valid p t
    · simp only [hv, Bool.not_false, if_true]
      exact ⟨_, _, rfl⟩
    · simp only [hv, Bool.not_true, Bool.false_eq_true, if_false]
      cases p.kind <;> exact ⟨_, _, rfl⟩

/-- C7: `compute_fee` fails exactly on a session with no exit time, and
on every closed session it succeeds with a full fee resolution. -/
theorem C7_closed_session_contract (s : PSession) (mgr : List PPass) :
    (compute_fee s mgr = none ↔ s.exit_time = none)
    ∧ (∀ t : Int, s.exit_time = some t →
        ∃ (r : FeeResult) (mgr' : List PPass), compute_fee s mgr = some (r, mgr')) := by
  refine ⟨?_, fun t ht => compute_fee_total s mgr t ht⟩
  cases hx : s.exit_time with
  | none =>
    unfold compute_fee
    rw [hx]
    simp
  | some t =>
    obtain ⟨r, mgr', h⟩ := compute_fee_total s mgr t hx
    simp [h, hx]

/-- Witness for C7: a concrete closed session resolves to a result. -/
theorem C7_witness :
    ∃ (r : FeeResult) (mgr' : List PPass),
      compute_fee ⟨"T1", ⟨"ABC", 1⟩, 61200, none, some 63000⟩ [] = some (r, mgr') :=
  (C7_closed_session_contract ⟨"T1", ⟨"ABC", 1⟩, 61200, none, some 63000⟩ []).2 63000 rfl

/-- The price of the 30-minute weekday stay entering at 17:00 used by the
concrete resolution scenarios: one billed peak hour at multiplier 1. -/
lemma calculate_price_1800_peak : calculate_price 1800 1 61200 63000 = 6 := by
  rw [calculate_price_eq_hourly_sum]
  have hc : (ceil_hours 1800).toNat = 1 := by
    have h1 : ⌈(1800 : ℚ) / 3600⌉ = 1 := by
      rw [Int.ceil_eq_iff]
      constructor <;> norm_num
    show (max 1 ⌈(1800 : ℚ) / 3600⌉).toNat = 1
    rw [h1]
    decide
  rw [hc]
  have h0 : base_rate 61200 = 6 := by decide
  have hs : hourly_sum 1 61200 1 = 6 := by
    have h := show hourly_sum 1 61200 1
        = base_rate (61200 + 3600 * ((0 : ℕ) : ℤ)) * 1 + 0 from rfl
    have e : (61200 + 3600 * ((0 : ℕ) : ℤ)) = 61200 := by decide
    rw [h, e, h0]
    norm_num
  rw [hs]
  have hf : ⌊(6 : ℚ) * 100⌋ = 600 := by
    rw [Int.floor_eq_iff]
    constructor <;> norm_num
  rw [pyRound2_of_lt 6 600 hf (by norm_num)]
  norm_num

/-- C1 counterexample: a session presenting an invalid (already used)
single-entry pass, whose plate also holds a valid monthly pass in the
registry, resolves to fee 0 by auto-detection — not to the normal
computed price (6) with an "INVALID (charged normally)" explanation as
the claim states.  So auto-detection *is* consulted after an invalid
explicit pass. -/
theorem C1_counterexample :
    compute_fee ⟨"T1", ⟨"ABC", 1⟩, 61200,
        some ⟨"P1", "ABC", .singleP, 0, 0, true⟩, some 63000⟩
        [⟨"P2", "ABC", .monthlyP, 0, 10, false⟩]
      = some (⟨0, "Pass Auto-Detected", "MonthlyPass VALID (fee waived)", some "MonthlyPass"⟩,
              [⟨"P2", "ABC", .monthlyP, 0, 10, false⟩])
    ∧ pass_is_valid ⟨"P1", "ABC", .singleP, 0, 0, true⟩ 63000 = false
    ∧ duration_seconds ⟨"T1", ⟨"ABC", 1⟩, 61200,
        some ⟨"P1", "ABC", .singleP, 0, 0, true⟩, some 63000⟩ = 1800
    ∧ calculate_price 1800 1 61200 63000 = 6
    ∧ (0 : ℚ) ≠ 6
    ∧ "Pass Auto-Detected" ≠ "SingleEntryPass INVALID (charged normally)" := by
  refine ⟨rfl, rfl, ?_, calculate_price_1800_peak, by norm_num, by decide⟩
  show ((63000 - 61200 : ℤ) : ℚ) = 1800
  norm_num

/-- C1 (amended): after an invalid explicitly presented pass the resolver
still runs auto-detection; only when auto-detection finds no valid
time-range pass (no valid pass, or a single-entry one first) is the
normal computed price charged, with passInfo
"variant INVALID (charged normally)" form and the registry unchanged. -/
theorem C1_invalid_pass_falls_through (s : PSession) (mgr : List PPass) (t : Int)
    (p : PPass) (hx : s.exit_time = some t) (hp : s.pass_used = some p)
    (hv : pass_is_valid p t = false)
    (hauto : ∀ q, find_valid_pass mgr s.vehicle.plate t = some q → q.kind = .singleP) :
    compute_fee s mgr
      = some (⟨calculate_price (duration_seconds s) s.vehicle.mult s.entry_time t,
               hourly_rule_name, pass_type_str p.kind ++ " INVALID (charged normally)",
               none⟩, mgr) := by
  unfold compute_fee
  simp only [hx, hp, hv, Bool.not_false, if_true]
  simp only [fee_steps23]
  cases hfind : find_valid_pass mgr s.vehicle.plate t with
  | none => rfl
  | some q =>
    have hk := hauto q hfind
    simp [hk]

/-- Witness for C1 (amended): the same invalid single-entry pass with an
empty registry charges the normal price with the INVALID explanation. -/
theorem C1_witness :
    compute_fee ⟨"T1", ⟨"ABC", 1⟩, 61200,
        some ⟨"P1", "ABC", .singleP, 0, 0, true⟩, some 63000⟩ []
      = some (⟨calculate_price
                 (duration_seconds ⟨"T1", ⟨"ABC", 1⟩, 61200,
                    some ⟨"P1", "ABC", .singleP, 0, 0, true⟩, some 63000⟩) 1 61200 63000,
               hourly_rule_name, "SingleEntryPass INVALID (charged normally)", none⟩, []) :=
  C1_invalid_pass_falls_through _ [] 63000 ⟨"P1", "ABC", .singleP, 0, 0, true⟩
    rfl rfl rfl (fun q hq => by simp [find_valid_pass] at hq)

/-- C4 counterexample: with no explicit pass, a plate holding a *valid*
monthly pass that is stored after a valid (unused) single-entry pass is
charged the normal price: auto-detection returns the first valid pass,
which is not a time-range pass, so no waiver happens — the claimed
"regardless of what other passes the registry holds" fails. -/
theorem C4_counterexample :
    pass_is_valid ⟨"P2", "ABC", .monthlyP, 0, 10, false⟩ 63000 = true
    ∧ compute_fee ⟨"T1", ⟨"ABC", 1⟩, 61200, none, some 63000⟩
        [⟨"P1", "ABC", .singleP, 0, 0, false⟩, ⟨"P2", "ABC", .monthlyP, 0, 10, false⟩]
      = some (⟨calculate_price
                  (duration_seconds ⟨"T1", ⟨"ABC", 1⟩, 61200, none, some 63000⟩)
                  1 61200 63000,
               hourly_rule_name, "No pass", none⟩,
              [⟨"P1", "ABC", .singleP, 0, 0, false⟩, ⟨"P2", "ABC", .monthlyP, 0, 10, false⟩])
    ∧ duration_seconds ⟨"T1", ⟨"ABC", 1⟩, 61200, none, some 63000⟩ = 1800
    ∧ calculate_price 1800 1 61200 63000 = 6
    ∧ (6 : ℚ) ≠ 0
    ∧ hourly_rule_name ≠ "Pass Auto-Detected" := by
  refine ⟨rfl, rfl, ?_, calculate_price_1800_peak, by norm_num, by decide⟩
  show ((63000 - 61200 : ℤ) : ℚ) = 1800
  norm_num

/-- C4 (amended): with no explicit pass, the session is waived with
"Pass Auto-Detected" exactly when the *first* valid stored pass for the
plate at exit time is a time-range (weekly/monthly) pass. -/
theorem C4_auto_detect_waives (s : PSession) (mgr : List PPass) (t : Int)
    (q : PPass) (hx : s.exit_time = some t) (hp : s.pass_used = none)
    (hf : find_valid_pass mgr s.vehicle.plate t = some q)
    (hk : q.kind = .monthlyP ∨ q.kind = .weeklyP) :
    compute_fee s mgr
      = some (⟨0, "Pass Auto-Detected", pass_type_str q.kind ++ " VALID (fee waived)",
               some (pass_type_str q.kind)⟩, mgr) := by
  unfold compute_fee
  rw [hx, hp]
  simp only [fee_steps23]
  cases hfind : find_valid_pass mgr s.vehicle.plate t with
  | none =>
    rw [hfind] at hf
    exact Option.noConfusion hf
  | some q' =>
    rw [hfind] at hf
    injection hf with he
    subst he
    rcases hk with hk | hk <;> simp [hk]

/-- Witness for C4 (amended): a lone valid monthly pass is auto-detected
and waives the fee. -/
theorem C4_witness :
    compute_fee ⟨"T1", ⟨"ABC", 1⟩, 61200, none, some 63000⟩
        [⟨"P2", "ABC", .monthlyP, 0, 10, false⟩]
      = some (⟨0, "Pass Auto-Detected", "MonthlyPass VALID (fee waived)", some "MonthlyPass"⟩,
              [⟨"P2", "ABC", .monthlyP, 0, 10, false⟩]) :=
  C4_auto_detect_waives _ _ 63000 ⟨"P2", "ABC", .monthlyP, 0, 10, false⟩
    rfl rfl rfl (Or.inl rfl)

/-- C6 counterexample: issuing a monthly pass whose end date (3) precedes
its start date (5) does not fail — the pass is created and stored. -/
theorem C6_counterexample :
    (create_monthly_pass "P1" "ABC" 5 3 []).2 = [⟨"P1", "ABC", .monthlyP, 5, 3, false⟩]
    ∧ (3 : ℤ) < 5 :=
  ⟨rfl, by decide⟩

/-- C6 (amended): issuing a weekly or monthly pass with an end date
strictly before its start date is not rejected: the pass is created and
stored unconditionally, and it merely can never be valid at any query
time. -/
theorem C6_no_date_order_check (fresh_id plate : String) (sd ed : Int)
    (mgr : List PPass) (h : ed < sd) :
    (create_monthly_pass fresh_id plate sd ed mgr).2
        = mgr ++ [MonthlyPass fresh_id plate sd ed]
    ∧ (create_weekly_pass fresh_id plate sd ed mgr).2
        = mgr ++ [WeeklyPass fresh_id plate sd ed]
    ∧ (∀ t : Int, pass_is_valid (MonthlyPass fresh_id plate sd ed) t = false)
    ∧ (∀ t : Int, pass_is_valid (WeeklyPass fresh_id plate sd ed) t = false) := by
  refine ⟨rfl, rfl, ?_, ?_⟩ <;>
    · intro t
      show decide (sd ≤ dateOf t ∧ dateOf t ≤ ed) = false
      simp only [decide_eq_false_iff_not]
      rintro ⟨h1, h2⟩
      omega

/-- Witness for C6 (amended) at start 5, end 3, empty registry. -/
theorem C6_witness :
    (create_monthly_pass "P1" "ABC" 5 3 []).2 = [] ++ [MonthlyPass "P1" "ABC" 5 3]
    ∧ (create_weekly_pass "P1" "ABC" 5 3 []).2 = [] ++ [WeeklyPass "P1" "ABC" 5 3]
    ∧ (∀ t : Int, pass_is_valid (MonthlyPass "P1" "ABC" 5 3) t = false)
    ∧ (∀ t : Int, pass_is_valid (WeeklyPass "P1" "ABC" 5 3) t = false) :=
  C6_no_date_order_check "P1" "ABC" 5 3 [] (by decide)

/-- Steps 2–3 never modify the registry. -/
lemma fee_steps23_snd (s : PSession) (mgr : List PPass) (t : Int) (info : String) :
    (fee_steps23 s mgr t info).2 = mgr := by
  simp only [fee_steps23]
  repeat' split
  all_goals rfl

/-- A single-entry pass is valid exactly when unused. -/
lemma pass_is_valid_single (p : PPass) (t : Int) (h : p.kind = .singleP) :
    pass_is_valid p t = !p.used := by
  unfold pass_is_valid
  rw [h]

/-- Zipping a list with itself yields no differing pairs. -/
lemma countP_zip_self (l : List PPass) :
    (l.zip l).countP (fun ab => decide (ab.1 ≠ ab.2)) = 0 := by
  induction l with
  | nil => rfl
  | cons a l ih =>
    rw [List.zip_cons_cons, List.countP_cons, ih]
    simp

/-- Mapping the conditional mark over passes none of which carry the
target id is the identity. -/
lemma map_mark_id (l : List PPass) (pid : String) (h : ∀ q ∈ l, q.pass_id ≠ pid) :
    l.map (fun q => if q.pass_id = pid then mark_used q else q) = l := by
  induction l with
  | nil => rfl
  | cons a l ih =>
    simp only [List.map_cons]
    rw [if_neg (h a (List.mem_cons_self a l)), ih (fun q hq => h q (List.mem_cons_of_mem a hq))]

/-- With pairwise-distinct pass ids, conditionally marking one id changes
at most one list entry. -/
lemma countP_zip_map_mark (pid : String) (l : List PPass)
    (hnd : (l.map (fun q => q.pass_id)).Nodup) :
    ((l.zip (l.map (fun q => if q.pass_id = pid then mark_used q else q))).countP
      (fun ab => decide (ab.1 ≠ ab.2))) ≤ 1 := by
  induction l with
  | nil => simp
  | cons a l ih =>
    simp only [List.map_cons, List.nodup_cons] at hnd
    obtain ⟨ha, hl⟩ := hnd
    by_cases hid : a.pass_id = pid
    · have htail : ∀ q ∈ l, q.pass_id ≠ pid := by
        intro q hq hqp
        exact ha (by rw [hid, ← hqp]; exact List.mem_map_of_mem _ hq)
      rw [List.map_cons, map_mark_id l pid htail, List.zip_cons_cons, List.countP_cons,
        countP_zip_self]
      repeat' split
      all_goals simp
    · simp only [List.map_cons, if_neg hid, List.zip_cons_cons, List.countP_cons]
      simpa using ih hl

/-- C5: in one fee resolution the registry changes in at most one pass,
and only by marking used the explicitly presented, still-unused
single-entry pass; a valid explicitly presented time-range pass waives
the fee with the registry untouched, and resolution without an explicit
pass (auto-detection) never mutates any pass. -/
theorem C5_single_mutation_frame (s : PSession) (mgr : List PPass) (t : Int)
    (r : FeeResult) (mgr' : List PPass)
    (hx : s.exit_time = some t) (hc : compute_fee s mgr = some (r, mgr')) :
    List.Forall₂ (fun a b => b = a ∨
        (∃ p, s.pass_used = some p ∧ p.kind = .singleP ∧ p.used = false
          ∧ a.pass_id = p.pass_id ∧ b = mark_used a)) mgr mgr'
    ∧ ((mgr.map (fun q => q.pass_id)).Nodup →
        ((mgr.zip mgr').countP (fun ab => decide (ab.1 ≠ ab.2))) ≤ 1)
    ∧ (∀ p, s.pass_used = some p → (p.kind = .monthlyP ∨ p.kind = .weeklyP) →
        pass_is_valid p t = true → mgr' = mgr ∧ r.fee = 0)
    ∧ (s.pass_used = none → mgr' = mgr) := by
  unfold compute_fee at hc
  simp only [hx] at hc
  cases hp : s.pass_used with
  | none =>
    simp only [hp] at hc
    injection hc with h1
    have hm : mgr' = mgr := by
      have h2 := congrArg Prod.snd h1
      rw [fee_steps23_snd] at h2
      exact h2.symm
    subst hm
    refine ⟨List.forall₂_same.mpr (fun x _ => Or.inl rfl), ?_, ?_, fun _ => rfl⟩
    · intro _
      rw [countP_zip_self]
      norm_num
    · intro p' hps'
      exact absurd hps' (by simp)
  | some p =>
    simp only [hp] at hc
    cases hv : pass_is_valid p t with
    | false =>
      simp only [hv, Bool.not_false, if_true] at hc
      injection hc with h1
      have hm : mgr' = mgr := by
        have h2 := congrArg Prod.snd h1
        rw [fee_steps23_snd] at h2
        exact h2.symm
      subst hm
      refine ⟨List.forall₂_same.mpr (fun x _ => Or.inl rfl), ?_, ?_, ?_⟩
      · intro _
        rw [countP_zip_self]
        norm_num
      · intro p' hps' hk' hval'
        injection hps' with he
        subst he
        rw [hv] at hval'
        exact absurd hval' (by simp)
      · intro h0
        exact Option.noConfusion h0
    | true =>
      simp only [hv, Bool.not_true, Bool.false_eq_true, if_false] at hc
      cases hk : p.kind with
      | monthlyP =>
        simp only [hk] at hc
        injection hc with h1
        injection h1 with hr hm
        subst hm
        refine ⟨List.forall₂_same.mpr (fun x _ => Or.inl rfl), ?_, ?_, ?_⟩
        · intro _
          rw [countP_zip_self]
          norm_num
        · intro p' hps' hk' hval'
          exact ⟨rfl, by rw [← hr]⟩
        · intro h0
          exact Option.noConfusion h0
      | weeklyP =>
        simp only [hk] at hc
        injection hc with h1
        injection h1 with hr hm
        subst hm
        refine ⟨List.forall₂_same.mpr (fun x _ => Or.inl rfl), ?_, ?_, ?_⟩
        · intro _
          rw [countP_zip_self]
          norm_num
        · intro p' hps' hk' hval'
          exact ⟨rfl, by rw [← hr]⟩
        · intro h0
          exact Option.noConfusion h0
      | singleP =>
        simp only [hk] at hc
        injection hc with h1
        injection h1 with hr hm
        subst hm
        have hused : p.used = false := by
          have h3 := pass_is_valid_single p t hk
          rw [hv] at h3
          cases hu : p.used
          · rfl
          · rw [hu] at h3
            exact absurd h3 (by simp)
        refine ⟨?_, ?_, ?_, ?_⟩
        · rw [List.forall₂_map_right_iff]
          refine List.forall₂_same.mpr (fun x hxm => ?_)
          by_cases hid : x.pass_id = p.pass_id
          · exact Or.inr ⟨p, rfl, hk, hused, hid, if_pos hid⟩
          · exact Or.inl (if_neg hid)
        · intro hnd
          exact countP_zip_map_mark p.pass_id mgr hnd
        · intro p' hps' hk' hval'
          injection hps' with he
          subst he
          rw [hk] at hk'
          rcases hk' with h | h <;> exact absurd h (by decide)
        · intro h0
          exact Option.noConfusion h0

/-- Witness for C5: resolving a session that presents its unused
single-entry pass relates the one-pass registry to the one with that
pass marked used. -/
theorem C5_witness :
    List.Forall₂ (fun a b => b = a ∨
        (∃ p, (PSession.mk "T1" ⟨"ABC", 1⟩ 61200
            (some ⟨"P1", "ABC", .singleP, 0, 0, false⟩) (some 63000)).pass_used = some p
          ∧ p.kind = .singleP ∧ p.used = false
          ∧ a.pass_id = p.pass_id ∧ b = mark_used a))
      [⟨"P1", "ABC", .singleP, 0, 0, false⟩]
      [⟨"P1", "ABC", .singleP, 0, 0, true⟩] :=
  (C5_single_mutation_frame ⟨"T1", ⟨"ABC", 1⟩, 61200,
      some ⟨"P1", "ABC", .singleP, 0, 0, false⟩, some 63000⟩
    [⟨"P1", "ABC", .singleP, 0, 0, false⟩] 63000
    ⟨0, "SingleEntryPass Applied", "SingleEntryPass USED (fee waived)", some "SingleEntryPass"⟩
    [⟨"P1", "ABC", .singleP, 0, 0, true⟩] rfl rfl).1

/-! ## Reporting claims -/

/-- The profit report's key list is the sorted dedup of the revenue and
expense report keys. -/
lemma profit_keys (fin : FinanceModule) :
    (monthly_profit_report fin).map Prod.fst
      = List.insertionSort (· ≤ ·)
          (((monthly_revenue_report fin).map Prod.fst
            ++ (monthly_expense_report fin).map Prod.fst).dedup) := by
  simp [monthly_profit_report, List.map_map, Function.comp_def]

/-- C8: the monthly profit report has exactly the union of the months of
the revenue and expense reports; each month maps to
`round(revenue − expense, 2)` with a missing side read as 0; and the
report is sorted by month key in strictly increasing order. -/
theorem C8_profit_report (fin : FinanceModule) :
    (∀ m : Nat, m ∈ (monthly_profit_report fin).map Prod.fst
        ↔ (m ∈ (monthly_revenue_report fin).map Prod.fst
           ∨ m ∈ (monthly_expense_report fin).map Prod.fst))
    ∧ (∀ (m : Nat) (v : ℚ), (m, v) ∈ monthly_profit_report fin →
        v = pyRound2 (dict_getD (monthly_revenue_report fin) m 0
              - dict_getD (monthly_expense_report fin) m 0))
    ∧ List.Sorted (· < ·) ((monthly_profit_report fin).map Prod.fst) := by
  have hkeys := profit_keys fin
  refine ⟨?_, ?_, ?_⟩
  · intro m
    rw [hkeys, (List.perm_insertionSort _ _).mem_iff, List.mem_dedup, List.mem_append]
  · intro m v hmem
    simp only [monthly_profit_report] at hmem
    rw [List.mem_map] at hmem
    obtain ⟨m', hm', heq⟩ := hmem
    injection heq with h1 h2
    subst h1
    exact h2.symm
  · rw [hkeys]
    have hs : List.Sorted (· ≤ ·)
        (List.insertionSort (· ≤ ·)
          (((monthly_revenue_report fin).map Prod.fst
            ++ (monthly_expense_report fin).map Prod.fst).dedup)) :=
      List.sorted_insertionSort _ _
    have hnd : (List.insertionSort (· ≤ ·)
        (((monthly_revenue_report fin).map Prod.fst
          ++ (monthly_expense_report fin).map Prod.fst).dedup)).Nodup :=
      ((List.perm_insertionSort _ _).nodup_iff).mpr (List.nodup_dedup _)
    exact (List.Pairwise.and hs hnd).imp (fun h => lt_of_le_of_ne h.1 h.2)

/-- Witness for C8: the spec scenario — revenue 200 on 2026-01-05 and
expense 50 on 2026-01-06 — yields a profit report whose key set is
exactly the month 2026-01 (key 202601). -/
theorem C8_witness :
    202601 ∈ (monthly_profit_report
        ⟨[(⟨2026, 1, 5⟩, 200, "Parking Fee")],
         [(⟨2026, 1, 6⟩, 50, "Maintenance")]⟩).map Prod.fst :=
  ((C8_profit_report ⟨[(⟨2026, 1, 5⟩, 200, "Parking Fee")],
      [(⟨2026, 1, 6⟩, 50, "Maintenance")]⟩).1 202601).mpr
    (Or.inl (by decide))

/-! ## Dictionary characterization lemmas for the aggregation claims -/

/-- A key is present exactly when it is among the stored keys. -/
lemma dict_lookup_isSome_iff {α : Type} (l : List (Nat × α)) (m : Nat) :
    (dict_lookup l m).isSome = true ↔ m ∈ l.map Prod.fst := by
  induction l with
  | nil => simp [dict_lookup]
  | cons kv rest ih =>
    by_cases h : kv.1 = m
    · simp [dict_lookup, h, ih]
    · have h2 : ¬ (m = kv.1) := fun he => h he.symm
      simp [dict_lookup, h, h2, ih]

/-- Looking up a value-mapped dict. -/
lemma dict_lookup_map_value {α β : Type} (f : α → β) (l : List (Nat × α)) (m : Nat) :
    dict_lookup (l.map (fun kv => (kv.1, f kv.2))) m = (dict_lookup l m).map f := by
  induction l with
  | nil => simp [dict_lookup]
  | cons kv rest ih =>
    by_cases h : kv.1 = m <;> simp [dict_lookup, h, ih]

/-- Looking up after an upsert. -/
lemma dict_lookup_upsert {α : Type} (k : Nat) (g : α → α) (init : α)
    (l : List (Nat × α)) (m : Nat) :
    dict_lookup (dict_upsert k g init l) m
      = if m = k then some (g ((dict_lookup l m).getD init)) else dict_lookup l m := by
  induction l with
  | nil => by_cases hm : m = k <;> simp [dict_upsert, dict_lookup, hm, Ne.symm]
  | cons kv rest ih =>
    by_cases h1 : kv.1 = k
    · have e : dict_upsert k g init (kv :: rest) = (kv.1, g kv.2) :: rest := by
        simp [dict_upsert, h1]
      rw [e]
      by_cases h2 : kv.1 = m
      · have hmk : m = k := by rw [← h2, h1]
        simp [dict_lookup, h2, hmk]
      · have hmk : ¬ (m = k) := fun he => h2 (by rw [h1, he])
        simp [dict_lookup, h2, hmk]
    · have e : dict_upsert k g init (kv :: rest) = kv :: dict_upsert k g init rest := by
        simp [dict_upsert, h1]
      rw [e]
      by_cases h2 : kv.1 = m
      · have hmk : ¬ (m = k) := fun he => h1 (by rw [h2, he])
        simp [dict_lookup, h2, hmk]
      · simp [dict_lookup, h2, ih]

/-- Looking up the result of one of the report fold loops: the entry for
month `m` exists iff some record falls in `m`, and its value folds `g`
over exactly the records of month `m` (in input order). -/
lemma dict_lookup_foldl {β α : Type} (key : β → Nat) (g : β → α → α) (init : α) :
    ∀ (records : List β) (acc : List (Nat × α)) (m : Nat),
      dict_lookup (records.foldl (fun a r => dict_upsert (key r) (g r) init a) acc) m
        = match dict_lookup acc m, records.filter (fun r => decide (key r = m)) with
          | some v, fil => some (fil.foldl (fun v r => g r v) v)
          | none, [] => none
          | none, fil => some (fil.foldl (fun v r => g r v) init) := by
  intro records
  induction records with
  | nil =>
    intro acc m
    cases h : dict_lookup acc m <;> simp [h]
  | cons r rs ih =>
    intro acc m
    rw [List.foldl_cons, ih, dict_lookup_upsert]
    by_cases hk : m = key r
    · subst hk
      cases hacc : dict_lookup acc (key r) with
      | some v => simp [hacc, List.filter_cons]
      | none => simp [hacc, List.filter_cons]
    · rw [if_neg hk]
      have hpred : ¬ (key r = m) := fun he => hk he.symm
      rw [List.filter_cons_of_neg (by simp [hpred])]

/-- Folding additions equals adding the sum. -/
lemma foldl_add_eq_sum (l : List (MDate × ℚ × String)) :
    ∀ v : ℚ, l.foldl (fun v r => v + r.2.1) v = v + (l.map (fun r => r.2.1)).sum := by
  induction l with
  | nil => intro v; simp
  | cons r rs ih =>
    intro v
    rw [List.foldl_cons, ih, List.map_cons, List.sum_cons]
    ring

/-- The revenue report's entry for a month is the rounded sum of the
amounts of that month's records (absent iff the month has no record). -/
lemma revenue_report_lookup (fin : FinanceModule) (m : Nat) :
    dict_lookup (monthly_revenue_report fin) m
      = match fin.revenues.filter (fun r => decide (month_key r.1 = m)) with
        | [] => none
        | fil => some (pyRound2 ((fil.map (fun r => r.2.1)).sum)) := by
  unfold monthly_revenue_report
  rw [dict_lookup_map_value, dict_lookup_foldl]
  cases hfil : fin.revenues.filter (fun r => decide (month_key r.1 = m)) with
  | nil => simp [dict_lookup]
  | cons r0 rs => simp [dict_lookup, foldl_add_eq_sum]

/-- Permuting the revenue records leaves every month's entry unchanged. -/
lemma revenue_report_lookup_perm (fin fin' : FinanceModule)
    (h : fin.revenues.Perm fin'.revenues) (m : Nat) :
    dict_lookup (monthly_revenue_report fin) m
      = dict_lookup (monthly_revenue_report fin') m := by
  rw [revenue_report_lookup, revenue_report_lookup]
  have hfil := h.filter (fun r => decide (month_key r.1 = m))
  cases h1 : fin.revenues.filter (fun r => decide (month_key r.1 = m)) with
  | nil =>
    rw [h1] at hfil
    rw [hfil.symm.eq_nil]
  | cons r0 rs =>
    rw [h1] at hfil
    cases h2 : fin'.revenues.filter (fun r => decide (month_key r.1 = m)) with
    | nil =>
      rw [h2] at hfil
      exact absurd hfil.eq_nil (by simp)
    | cons t0 ts =>
      rw [h2] at hfil
      have hsum : ((r0 :: rs).map (fun r => r.2.1)).sum = ((t0 :: ts).map (fun r => r.2.1)).sum :=
        List.Perm.sum_eq (hfil.map _)
      simp only []
      rw [hsum]

/-- The expense report is the revenue report of the expense records. -/
lemma expense_as_revenue (fin : FinanceModule) :
    monthly_expense_report fin = monthly_revenue_report ⟨fin.expenses, []⟩ := rfl

/-- Folding the sale counters counts each variant. -/
lemma foldl_bump_counts (l : List PassSale) :
    ∀ c : SaleCounts,
      l.foldl (fun c s => bump_counts s.pass_type c) c
        = ⟨c.weekly + l.countP (fun s => decide (s.pass_type = "WeeklyPass")),
           c.monthly + l.countP (fun s => decide (s.pass_type = "MonthlyPass")),
           c.single + l.countP (fun s => decide (s.pass_type = "SingleEntryPass"))⟩ := by
  induction l with
  | nil => intro c; cases c; simp
  | cons s l ih =>
    intro c
    rw [List.foldl_cons, ih, List.countP_cons, List.countP_cons, List.countP_cons]
    by_cases h1 : s.pass_type = "WeeklyPass"
    · have h2 : ¬ (s.pass_type = "MonthlyPass") := by rw [h1]; decide
      have h3 : ¬ (s.pass_type = "SingleEntryPass") := by rw [h1]; decide
      simp [bump_counts, h1, h2, h3, SaleCounts.mk.injEq] <;> omega
    · by_cases h2 : s.pass_type = "MonthlyPass"
      · have h3 : ¬ (s.pass_type = "SingleEntryPass") := by rw [h2]; decide
        simp [bump_counts, h1, h2, h3, SaleCounts.mk.injEq] <;> omega
      · by_cases h3 : s.pass_type = "SingleEntryPass"
        · simp [bump_counts, h1, h2, h3, SaleCounts.mk.injEq] <;> omega
        · simp [bump_counts, h1, h2, h3, SaleCounts.mk.injEq] <;> omega

/-- The pass-sales report's entry for a month holds the per-variant
counts over that month's sales. -/
lemma sales_report_lookup (sales : List PassSale) (m : Nat) :
    dict_lookup (monthly_pass_sales_report sales) m
      = match sales.filter (fun s => decide (month_key s.sold_on = m)) with
        | [] => none
        | fil => some ⟨fil.countP (fun s => decide (s.pass_type = "WeeklyPass")),
                       fil.countP (fun s => decide (s.pass_type = "MonthlyPass")),
                       fil.countP (fun s => decide (s.pass_type = "SingleEntryPass"))⟩ := by
  unfold monthly_pass_sales_report
  rw [dict_lookup_foldl]
  cases hfil : sales.filter (fun s => decide (month_key s.sold_on = m)) with
  | nil => simp [dict_lookup]
  | cons s0 ss =>
    simp only [dict_lookup]
    rw [foldl_bump_counts]
    simp [zero_counts]

/-- Permuting the sales leaves every month's counters unchanged. -/
lemma sales_report_lookup_perm (sales sales' : List PassSale)
    (h : sales.Perm sales') (m : Nat) :
    dict_lookup (monthly_pass_sales_report sales) m
      = dict_lookup (monthly_pass_sales_report sales') m := by
  rw [sales_report_lookup, sales_report_lookup]
  have hfil := h.filter (fun s => decide (month_key s.sold_on = m))
  cases h1 : sales.filter (fun s => decide (month_key s.sold_on = m)) with
  | nil =>
    rw [h1] at hfil
    rw [hfil.symm.eq_nil]
  | cons s0 ss =>
    rw [h1] at hfil
    cases h2 : sales'.filter (fun s => decide (month_key s.sold_on = m)) with
    | nil =>
      rw [h2] at hfil
      exact absurd hfil.eq_nil (by simp)
    | cons t0 ts =>
      rw [h2] at hfil
      simp only []
      rw [hfil.countP_eq, hfil.countP_eq, hfil.countP_eq]

/-- Membership in a Python-set insertion. -/
lemma mem_set_insert (x p : String) (v : List String) :
    x ∈ set_insert p v ↔ x ∈ v ∨ x = p := by
  by_cases h : p ∈ v
  · simp only [set_insert, if_pos h]
    constructor
    · exact Or.inl
    · rintro (hx | rfl)
      exacts [hx, h]
  · simp [set_insert, if_neg h]

/-- Insertion keeps the set duplicate-free. -/
lemma set_insert_nodup (p : String) (v : List String) (h : v.Nodup) :
    (set_insert p v).Nodup := by
  by_cases hm : p ∈ v
  · simpa [set_insert, if_pos hm] using h
  · simp [set_insert, if_neg hm, List.nodup_append, h, hm]

/-- The plates accumulated by the per-month set fold. -/
lemma foldl_set_insert_mem (l : List RReceipt) :
    ∀ (v : List String) (x : String),
      x ∈ l.foldl (fun v r => set_insert r.plate v) v
        ↔ x ∈ v ∨ x ∈ l.map (fun r => r.plate) := by
  induction l with
  | nil => intro v x; simp
  | cons r rs ih =>
    intro v x
    rw [List.foldl_cons, ih, mem_set_insert]
    simp only [List.map_cons, List.mem_cons]
    tauto

/-- The per-month plate set stays duplicate-free. -/
lemma foldl_set_insert_nodup (l : List RReceipt) :
    ∀ v : List String, v.Nodup → (l.foldl (fun v r => set_insert r.plate v) v).Nodup := by
  induction l with
  | nil => intro v h; simpa
  | cons r rs ih =>
    intro v h
    rw [List.foldl_cons]
    exact ih _ (set_insert_nodup _ _ h)

/-- The car-count report's entry for a month is the size of the set of
plates of that month's receipts. -/
lemma car_count_lookup (receipts : List RReceipt) (m : Nat) :
    dict_lookup (monthly_car_count receipts) m
      = match receipts.filter (fun r => decide (month_key r.exit_date = m)) with
        | [] => none
        | fil => some ((fil.foldl (fun v r => set_insert r.plate v) []).length) := by
  unfold monthly_car_count
  rw [dict_lookup_map_value, dict_lookup_foldl]
  cases hfil : receipts.filter (fun r => decide (month_key r.exit_date = m)) with
  | nil => simp [dict_lookup]
  | cons r0 rs => simp [dict_lookup]

/-- Permuting the receipts leaves every month's distinct-plate count
unchanged. -/
lemma car_count_lookup_perm (rc rc' : List RReceipt) (h : rc.Perm rc') (m : Nat) :
    dict_lookup (monthly_car_count rc) m = dict_lookup (monthly_car_count rc') m := by
  rw [car_count_lookup, car_count_lookup]
  have hfil := h.filter (fun r => decide (month_key r.exit_date = m))
  cases h1 : rc.filter (fun r => decide (month_key r.exit_date = m)) with
  | nil =>
    rw [h1] at hfil
    rw [hfil.symm.eq_nil]
  | cons r0 rs =>
    rw [h1] at hfil
    cases h2 : rc'.filter (fun r => decide (month_key r.exit_date = m)) with
    | nil =>
      rw [h2] at hfil
      exact absurd hfil.eq_nil (by simp)
    | cons t0 ts =>
      rw [h2] at hfil
      have hnd1 : ((r0 :: rs).foldl (fun v r => set_insert r.plate v) []).Nodup :=
        foldl_set_insert_nodup _ [] List.nodup_nil
      have hnd2 : ((t0 :: ts).foldl (fun v r => set_insert r.plate v) []).Nodup :=
        foldl_set_insert_nodup _ [] List.nodup_nil
      have hmem : ∀ x, x ∈ (r0 :: rs).foldl (fun v r => set_insert r.plate v) []
          ↔ x ∈ (t0 :: ts).foldl (fun v r => set_insert r.plate v) [] := by
        intro x
        rw [foldl_set_insert_mem, foldl_set_insert_mem]
        simp only [List.not_mem_nil, false_or]
        exact (hfil.map (fun r => r.plate)).mem_iff
      have hperm := (List.perm_ext_iff_of_nodup hnd1 hnd2).mpr hmem
      simp only []
      rw [hperm.length_eq]

/-- The profit report is determined by the month-keyed lookups of the two
underlying reports. -/
lemma profit_report_of_lookups (fin fin' : FinanceModule)
    (hr : ∀ m, dict_lookup (monthly_revenue_report fin) m
        = dict_lookup (monthly_revenue_report fin') m)
    (he : ∀ m, dict_lookup (monthly_expense_report fin) m
        = dict_lookup (monthly_expense_report fin') m) :
    monthly_profit_report fin = monthly_profit_report fin' := by
  have hrk : ∀ m, m ∈ (monthly_revenue_report fin).map Prod.fst
      ↔ m ∈ (monthly_revenue_report fin').map Prod.fst := by
    intro m
    rw [← dict_lookup_isSome_iff, ← dict_lookup_isSome_iff, hr m]
  have hek : ∀ m, m ∈ (monthly_expense_report fin).map Prod.fst
      ↔ m ∈ (monthly_expense_report fin').map Prod.fst := by
    intro m
    rw [← dict_lookup_isSome_iff, ← dict_lookup_isSome_iff, he m]
  have hsortEq : List.insertionSort (· ≤ ·)
        (((monthly_revenue_report fin).map Prod.fst
          ++ (monthly_expense_report fin).map Prod.fst).dedup)
      = List.insertionSort (· ≤ ·)
        (((monthly_revenue_report fin').map Prod.fst
          ++ (monthly_expense_report fin').map Prod.fst).dedup) := by
    apply List.eq_of_perm_of_sorted ?_ (List.sorted_insertionSort _ _)
      (List.sorted_insertionSort _ _)
    apply (List.perm_ext_iff_of_nodup
      ((List.perm_insertionSort _ _).nodup_iff.mpr (List.nodup_dedup _))
      ((List.perm_insertionSort _ _).nodup_iff.mpr (List.nodup_dedup _))).mpr
    intro m
    rw [(List.perm_insertionSort _ _).mem_iff, (List.perm_insertionSort _ _).mem_iff,
      List.mem_dedup, List.mem_dedup, List.mem_append, List.mem_append, hrk m, hek m]
  simp only [monthly_profit_report]
  rw [hsortEq]
  apply List.map_congr_left
  intro m _
  have h1 : dict_getD (monthly_revenue_report fin) m 0
      = dict_getD (monthly_revenue_report fin') m 0 := by
    unfold dict_getD
    rw [hr m]
  have h2 : dict_getD (monthly_expense_report fin) m 0
      = dict_getD (monthly_expense_report fin') m 0 := by
    unfold dict_getD
    rw [he m]
  rw [h1, h2]

/-- C9: every monthly aggregation — pass-sale counters, distinct-vehicle
counts, revenue sums, expense sums and profit — is order-independent:
permuting the input records leaves the month-keyed totals unchanged. -/
theorem C9_order_independent :
    (∀ (sales sales' : List PassSale), sales.Perm sales' → ∀ m : Nat,
        dict_lookup (monthly_pass_sales_report sales) m
          = dict_lookup (monthly_pass_sales_report sales') m)
    ∧ (∀ (rc rc' : List RReceipt), rc.Perm rc' → ∀ m : Nat,
        dict_lookup (monthly_car_count rc) m = dict_lookup (monthly_car_count rc') m)
    ∧ (∀ (fin fin' : FinanceModule), fin.revenues.Perm fin'.revenues → ∀ m : Nat,
        dict_lookup (monthly_revenue_report fin) m
          = dict_lookup (monthly_revenue_report fin') m)
    ∧ (∀ (fin fin' : FinanceModule), fin.expenses.Perm fin'.expenses → ∀ m : Nat,
        dict_lookup (monthly_expense_report fin) m
          = dict_lookup (monthly_expense_report fin') m)
    ∧ (∀ (fin fin' : FinanceModule), fin.revenues.Perm fin'.revenues →
        fin.expenses.Perm fin'.expenses →
        monthly_profit_report fin = monthly_profit_report fin') := by
  refine ⟨sales_report_lookup_perm, car_count_lookup_perm, revenue_report_lookup_perm,
    ?_, ?_⟩
  · intro fin fin' h m
    rw [expense_as_revenue, expense_as_revenue]
    exact revenue_report_lookup_perm ⟨fin.expenses, []⟩ ⟨fin'.expenses, []⟩ h m
  · intro fin fin' h1 h2
    refine profit_report_of_lookups fin fin'
      (fun m => revenue_report_lookup_perm fin fin' h1 m) (fun m => ?_)
    rw [expense_as_revenue, expense_as_revenue]
    exact revenue_report_lookup_perm ⟨fin.expenses, []⟩ ⟨fin'.expenses, []⟩ h2 m

/-- Witness for C9: swapping two revenue records leaves the 2026-01
revenue entry unchanged. -/
theorem C9_witness :
    dict_lookup (monthly_revenue_report
        ⟨[(⟨2026, 1, 5⟩, 200, "A"), (⟨2026, 2, 6⟩, 50, "B")], []⟩) 202601
      = dict_lookup (monthly_revenue_report
        ⟨[(⟨2026, 2, 6⟩, 50, "B"), (⟨2026, 1, 5⟩, 200, "A")], []⟩) 202601 :=
  C9_order_independent.2.2.1 _ _ (List.Perm.swap _ _ _) 202601
